import Mathlib

/-!
Shallow embedding of the collective-memory training/versioning workflow of the
`docker_hello_world` repository (`src/app.py`, `src/train.py`).

The HTTP layer, the GCS client and the MLflow client are external
collaborators; their state is embedded explicitly.  Components of the core
(Validator, Aggregator, Trainer guard, Registry Adapter) that the sources under
`src/` only call into are modelled from the specification, as marked on each
definition.
-/

namespace HousingApp

/-- Decidable equality of fallible results, used to evaluate the embedded
operations on concrete inputs. -/
instance {ε α : Type} [DecidableEq ε] [DecidableEq α] :
    DecidableEq (Except ε α) := fun a b =>
  match a, b with
  | Except.error e, Except.error f =>
    if h : e = f then Decidable.isTrue (by rw [h])
    else Decidable.isFalse (fun hc => h (Except.error.inj hc))
  | Except.ok x, Except.ok y =>
    if h : x = y then Decidable.isTrue (by rw [h])
    else Decidable.isFalse (fun hc => h (Except.ok.inj hc))
  | Except.error _, Except.ok _ =>
    Decidable.isFalse (fun hc => Except.noConfusion hc)
  | Except.ok _, Except.error _ =>
    Decidable.isFalse (fun hc => Except.noConfusion hc)

/-- Stage of a registered model version, as surfaced by `current_stage` in
`get_model_history` (`src/app.py`) and by the stage transition in
`promote_model` (`src/app.py`). -/
inductive Stage
  | none
  | staging
  | production
  | archived
deriving DecidableEq

/-- One registry entry for the fixed model name `HousingPriceModel`:
version number, stage, quality metric and creation time
(`get_model_history` in `src/app.py`). -/
structure ModelVersion where
  version : Nat
  stage : Stage
  metric : Int
  created : Nat
deriving DecidableEq

/-- Modelled from the spec: the MLflow model registry state that
`src/app.py` and `src/train.py` call into is not part of the repository
sources; it is the ordered collection of versions of the fixed model name. -/
structure Registry where
  versions : List ModelVersion
deriving DecidableEq

/-- Errors of the registry adapter, from the spec's error taxonomy. -/
inductive RegistryError
  | notFound
  | noProductionVersion
deriving DecidableEq

/-- Next monotonic version number: one more than the largest number used. -/
def nextVersion (reg : Registry) : Nat :=
  (reg.versions.map (fun w => w.version)).foldr Nat.max 0 + 1

/-- Modelled from the spec: `register(model_artifact, metric, run_metadata)`
assigns the next monotonic version number, stores metric and creation time,
and the new version starts with no stage.  The registration in `src/train.py`
delegates this to `mlflow.sklearn.log_model(..., registered_model_name=...)`,
whose registry side is outside the sources. -/
def registerVersion (reg : Registry) (metric : Int) (created : Nat) :
    Nat × Registry :=
  (nextVersion reg,
   ⟨reg.versions ++ [⟨nextVersion reg, Stage.none, metric, created⟩]⟩)

/-- Effect of a promotion on one registry entry: the chosen version becomes
`Production`; any other version currently in `Production` is archived;
remaining versions keep their stage. -/
def promoteOne (v : Nat) (w : ModelVersion) : ModelVersion :=
  if w.version == v then { w with stage := Stage.production }
  else if w.stage == Stage.production then { w with stage := Stage.archived }
  else w

/-- Modelled from the spec: `promote(version_number)`.  `promote_model` in
`src/app.py` delegates to
`transition_model_version_stage(..., stage="Production",
archive_existing_versions=True)`; the registry side of that call is outside
the sources and is modelled from the spec's contract (set the chosen version
to `Production`, set every other version's stage away from `Production`,
`NotFoundError` when the version does not exist). -/
def promote (reg : Registry) (v : Nat) : Except RegistryError Registry :=
  if reg.versions.any (fun w => w.version == v) then
    Except.ok ⟨reg.versions.map (promoteOne v)⟩
  else Except.error RegistryError.notFound

/-- Model history sorted by version number descending, as built by
`get_model_history` in `src/app.py`. -/
def history (reg : Registry) : List ModelVersion :=
  List.insertionSort (fun a b => b.version ≤ a.version) reg.versions

/-- Modelled from the spec: `load_production()` fetches the currently live
version and fails with `NoProductionVersionError` when nothing was ever
promoted; the prediction path of `src/app.py` only stubs this out. -/
def loadProduction (reg : Registry) : Except RegistryError ModelVersion :=
  match reg.versions.find? (fun w => w.stage == Stage.production) with
  | Option.some w => Except.ok w
  | Option.none => Except.error RegistryError.noProductionVersion

/-- Invariant: at most one version (identified by its number) holds stage
`Production` at any time. -/
def atMostOneProduction (reg : Registry) : Prop :=
  ∀ w ∈ reg.versions, ∀ w' ∈ reg.versions,
    w.stage = Stage.production → w'.stage = Stage.production →
      w.version = w'.version

/-- The two required columns of a housing dataset: the numeric feature and
the 0/1 label used by `model.fit(df[['sqft']], df['is_expensive'])` in
`src/train.py`. -/
def requiredColumns : List String := ["sqft", "is_expensive"]

/-- Whitespace as stripped from column names on ingest. -/
def isSpaceChar (c : Char) : Bool :=
  c == ' ' || c == '\t' || c == '\n' || c == '\r'

/-- Column-name normalization on ingest: trim surrounding whitespace and
lowercase. -/
def normalizeCol (s : String) : String :=
  String.mk
    (((s.data.dropWhile isSpaceChar).reverse.dropWhile
        isSpaceChar).reverse.map Char.toLower)

/-- A tabular dataset as parsed from a CSV file: header row of column names
followed by data rows of cells. -/
structure Dataset where
  header : List String
  rows : List (List String)
deriving DecidableEq

/-- Position of (normalized) column `c` in the header. -/
def colIndex (header : List String) (c : String) : Nat :=
  (header.map normalizeCol).indexOf c

/-- Cell of `row` under column `c`; a missing cell reads as the empty
string. -/
def cellAt (header : List String) (row : List String) (c : String) : String :=
  row.getD (colIndex header c) ""

/-- The literal characters of a cell that fall outside `[0-9.]`. -/
def invalidCharsOf (cell : String) : List Char :=
  cell.toList.filter (fun ch => !(ch.isDigit || ch == '.'))

/-- Validation errors, from the spec's error taxonomy: a missing required
column, or a first offending cell with its location.  `row` is 1-indexed with
the header excluded; `line` is the physical CSV line, i.e. `row + 1`. -/
inductive ValidationError
  | schemaError (column : String)
  | formatError (row : Nat) (line : Nat) (column : String) (source : String)
      (badChars : List Char)
deriving DecidableEq

/-- First required column of `row` whose cell holds a character outside
`[0-9.]`, with those characters; columns are scanned in `requiredColumns`
order. -/
def findBadInRow (header row : List String) :
    List String → Option (String × List Char)
  | [] => Option.none
  | c :: cs =>
    if (invalidCharsOf (cellAt header row c)).isEmpty then
      findBadInRow header row cs
    else Option.some (c, invalidCharsOf (cellAt header row c))

/-- First offending cell over the data rows, scanning rows in order; `i` is
the 0-based index of the first row of the argument list. -/
def findBadCell (header : List String) (src : String) :
    List (List String) → Nat → Option ValidationError
  | [], _ => Option.none
  | r :: rs, i =>
    match findBadInRow header r requiredColumns with
    | Option.some (c, bad) =>
        Option.some (ValidationError.formatError (i + 1) (i + 2) c src bad)
    | Option.none => findBadCell header src rs (i + 1)

/-- Modelled from the spec: the Validator component
(`validate(dataset, source_name)`) is absent from the sources under `src/`
(`train_model` in `src/train.py` feeds the parsed CSV straight to the
estimator); the definition follows the spec's contract: normalize column
names, fail with `SchemaError` naming the missing required column, fail with
`FormatError` on the first cell of a required column holding a character
outside `[0-9.]`, otherwise return the dataset unchanged. -/
def validate (ds : Dataset) (src : String) : Except ValidationError Dataset :=
  match requiredColumns.find?
      (fun c => !((ds.header.map normalizeCol).contains c)) with
  | Option.some c => Except.error (ValidationError.schemaError c)
  | Option.none =>
    match findBadCell ds.header src ds.rows 0 with
    | Option.some e => Except.error e
    | Option.none => Except.ok ds

/-- A dataset stored in the historical source (object storage), keyed by its
blob name. -/
structure NamedDataset where
  name : String
  data : Dataset
deriving DecidableEq

/-- Rows of the historical datasets that pass validation; a dataset failing
validation is skipped (the spec's skip-with-a-warning policy). -/
def validatedRows : List NamedDataset → List (List String)
  | [] => []
  | nd :: rest =>
    match validate nd.data nd.name with
    | Except.ok clean => clean.rows ++ validatedRows rest
    | Except.error _ => validatedRows rest

/-- Removes exact-duplicate rows, keeping the first occurrence; `seen` holds
the rows already emitted. -/
def dedupGo : List (List String) → List (List String) → List (List String)
  | [], _ => []
  | r :: rs, seen =>
    if r ∈ seen then dedupGo rs seen else r :: dedupGo rs (r :: seen)

/-- Deduplication by full-row equality, keeping first occurrences. -/
def dedupRows (l : List (List String)) : List (List String) :=
  dedupGo l []

/-- Modelled from the spec: the Memory Aggregator
(`aggregate(new_clean_dataset, historical_source)`) is absent from the
sources under `src/` (`train_model` in `src/train.py` reads a single fixed
blob); the definition follows the spec's contract: enumerate the stored
datasets, exclude the one currently submitted (matched by name), keep only
the ones that validate, concatenate them after the new dataset and remove
exact-duplicate rows. -/
def aggregate (newName : String) (newDs : Dataset)
    (store : List NamedDataset) : List (List String) :=
  dedupRows (newDs.rows ++
    validatedRows (store.filter (fun nd => nd.name ≠ newName)))

/-- One submission: the memory set computed for the new dataset, together
with the historical store after the new dataset has been stored under its
name. -/
def submitDataset (nm : String) (ds : Dataset) (store : List NamedDataset) :
    List (List String) × List NamedDataset :=
  (aggregate nm ds store, ⟨nm, ds⟩ :: store)

/-- The label column, `is_expensive` (`src/train.py`). -/
def labelColumn : String := "is_expensive"

/-- Trainer failure, from the spec's error taxonomy. -/
inductive TrainError
  | insufficientData
deriving DecidableEq

/-- A fitted model: the data it was fitted on stands in for the opaque
estimator state handed to the registry. -/
structure FittedModel where
  header : List String
  rows : List (List String)
deriving DecidableEq

/-- The distinct label classes of a memory set. -/
def labelClasses (header : List String) (rows : List (List String)) :
    List String :=
  (rows.map (fun r => cellAt header r labelColumn)).dedup

/-- Modelled from the spec: the Trainer's degenerate-input guard
(`InsufficientDataError` on an empty memory set or fewer than 2 distinct
label classes) is absent from the sources under `src/` (`train_model` in
`src/train.py` lets the external estimator fail); the fitting itself is the
external `Estimator` capability and is kept opaque. -/
def train (header : List String) (rows : List (List String)) :
    Except TrainError FittedModel :=
  if rows = [] ∨ (labelClasses header rows).length < 2 then
    Except.error TrainError.insufficientData
  else Except.ok ⟨header, rows⟩

/-- Workflow-level errors surfaced to the caller of one orchestrator run. -/
inductive WorkflowError
  | validationFailed (e : ValidationError)
  | trainingFailed (e : TrainError)
deriving DecidableEq

/-- Aggregation and training stage of one orchestrator run, on a dataset
that already passed validation. -/
def trainStage (nm : String) (clean : Dataset) (store : List NamedDataset) :
    Except WorkflowError (FittedModel × Nat) :=
  match train clean.header (aggregate nm clean store) with
  | Except.error e => Except.error (WorkflowError.trainingFailed e)
  | Except.ok m => Except.ok (m, (aggregate nm clean store).length)

/-- Modelled from the spec: the Workflow Orchestrator sequencing
Validator → Aggregator → Trainer once per upload event, propagating the
failing stage's error to the caller with no retry. -/
def runWorkflow (nm : String) (ds : Dataset) (store : List NamedDataset) :
    Except WorkflowError (FittedModel × Nat) :=
  match validate ds nm with
  | Except.error e => Except.error (WorkflowError.validationFailed e)
  | Except.ok clean => trainStage nm clean store

/-- The `/predict` route of `src/app.py`: it formats the query parameter into
a fixed mock answer and consults no model. -/
def predictEndpoint (sqft : String) : String :=
  "Prediction for " ++ sqft ++ " sqft: (Mock: EXPENSIVE)"

/-- Blob name used by the `/upload` route of `src/app.py`:
`bucket.blob(file.filename)`, the client-supplied filename unchanged. -/
def uploadBlobName (filename : String) : String := filename

/-- Blob name targeted by the `/delete/<filename>` route of `src/app.py`:
`f"uploads/{filename}"`. -/
def deleteBlobName (filename : String) : String := "uploads/" ++ filename

/-- The fixed blob read by `train_model` in `src/train.py`. -/
def trainingDataBlob : String := "uploads/test_data.csv"

/-- Whether a blob name begins with the `uploads/` folder convention. -/
def hasUploadsFolder (nm : String) : Bool :=
  List.isPrefixOf ("uploads/".data) nm.data

/-- Combined external state seen by `train_model` in `src/train.py`: the
object-storage bucket (blob name and contents), the number of tracking runs
started, and the model registry. -/
structure SystemState where
  blobs : List (String × String)
  runsStarted : Nat
  registry : Registry
deriving DecidableEq

/-- Existence check of a blob (`blob.exists()` against the bucket). -/
def blobExists (st : SystemState) (nm : String) : Bool :=
  st.blobs.any (fun b => b.1 == nm)

/-- Upload of a blob (`blob.upload_from_string`): store contents under a
blob name, replacing any previous blob of that name. -/
def putBlob (st : SystemState) (nm contents : String) : SystemState :=
  { st with blobs := (nm, contents) :: st.blobs.filter (fun b => b.1 ≠ nm) }

/-- The function `train_model` of `src/train.py` as a state transformer: when the training
blob `uploads/test_data.csv` is missing it prints and returns with no effect;
otherwise it starts one tracking run, registers a new model version (the
metric and serialized model produced by the external estimator are
parameters), and uploads the legacy `models/model.pkl` blob. -/
def trainModel (metric : Int) (modelBytes : String) (now : Nat)
    (st : SystemState) : SystemState :=
  if blobExists st trainingDataBlob then
    putBlob
      { st with
        runsStarted := st.runsStarted + 1,
        registry := (registerVersion st.registry metric now).2 }
      "models/model.pkl" modelBytes
  else st

/-- A registry with version 2 live and version 3 freshly registered. -/
def regDemo : Registry :=
  ⟨[⟨2, Stage.production, 5, 10⟩, ⟨3, Stage.none, 7, 20⟩]⟩

/-- The registry `regDemo` after promoting version 3. -/
def regDemoAfter : Registry :=
  ⟨[⟨2, Stage.archived, 5, 10⟩, ⟨3, Stage.production, 7, 20⟩]⟩

/-- A clean two-row demonstration dataset. -/
def dsDemo : Dataset :=
  ⟨["sqft", "is_expensive"], [["500", "0"], ["3000", "1"]]⟩

/-- A dataset whose first data row has a bad `sqft` cell. -/
def dsBadCell : Dataset :=
  ⟨["sqft", "is_expensive"], [["5a0", "0"]]⟩

/-- A dataset missing the required `sqft` column. -/
def dsMissingCol : Dataset :=
  ⟨["price", "is_expensive"], []⟩

/-- A clean dataset whose label column has a single class. -/
def dsOneClass : Dataset :=
  ⟨["sqft", "is_expensive"], [["500", "0"]]⟩

/-- A stored historical dataset that fails validation. -/
def ndBad : NamedDataset := ⟨"legacy.csv", dsMissingCol⟩

/-- A bucket holding a single unrelated blob. -/
def stDemo : SystemState := ⟨[("other.csv", "x")], 0, ⟨[]⟩⟩

/-- A promotion never changes a version's number. -/
theorem promoteOne_version (v : Nat) (w : ModelVersion) :
    (promoteOne v w).version = w.version := by
  unfold promoteOne
  split
  · rfl
  · split <;> rfl

/-- After a promotion step, an entry is in `Production` exactly when it is
the promoted version. -/
theorem promoteOne_stage_iff (v : Nat) (w : ModelVersion) :
    (promoteOne v w).stage = Stage.production ↔ w.version = v := by
  unfold promoteOne
  split
  · next h => simpa using beq_iff_eq.mp h
  · next h =>
    split
    · next h2 =>
      simp only [beq_iff_eq] at h
      simp [h]
    · next h2 =>
      simp only [beq_iff_eq] at h h2
      simp [h, h2]

/-- Stage layout after a successful promote: the promoted version is in
`Production`, every other version is not. -/
theorem promote_ok_stages {reg : Registry} {v : Nat} {reg' : Registry}
    (h : promote reg v = Except.ok reg') :
    ∀ w ∈ reg'.versions,
      (w.version = v → w.stage = Stage.production) ∧
      (w.version ≠ v → w.stage ≠ Stage.production) := by
  unfold promote at h
  split at h
  · injection h with h'
    subst h'
    intro w hw
    simp only [List.mem_map] at hw
    obtain ⟨u, _, rfl⟩ := hw
    constructor
    · intro hv
      exact (promoteOne_stage_iff v u).mpr (by rw [← promoteOne_version v u]; exact hv)
    · intro hv hst
      exact hv (by rw [promoteOne_version v u]; exact (promoteOne_stage_iff v u).mp hst)
  · cases h

/-- Registering a new version preserves the single-`Production` invariant. -/
theorem register_preserves_atMostOne (reg : Registry) (m : Int) (c : Nat)
    (h : atMostOneProduction reg) :
    atMostOneProduction (registerVersion reg m c).2 := by
  intro w hw w' hw' hs hs'
  unfold registerVersion at hw hw'
  simp only [List.mem_append, List.mem_singleton] at hw hw'
  rcases hw with hw | hw
  · rcases hw' with hw' | hw'
    · exact h w hw w' hw' hs hs'
    · subst hw'
      simp at hs'
  · subst hw
    simp at hs

/-- Any successful promote establishes the single-`Production` invariant. -/
theorem promote_atMostOne {reg : Registry} {v : Nat} {reg' : Registry}
    (h : promote reg v = Except.ok reg') :
    atMostOneProduction reg' := by
  intro w hw w' hw' hs hs'
  by_cases e : w.version = v
  · by_cases e' : w'.version = v
    · rw [e, e']
    · exact absurd hs' ((promote_ok_stages h w' hw').2 e')
  · exact absurd hs ((promote_ok_stages h w hw).2 e)

/-- Every element is bounded by the folded maximum. -/
theorem le_foldr_max (l : List Nat) (x : Nat) (hx : x ∈ l) :
    x ≤ l.foldr Nat.max 0 := by
  induction l with
  | nil => cases hx
  | cons a as ih =>
    rcases List.mem_cons.mp hx with h | h
    · subst h
      exact Nat.le_max_left _ _
    · exact Nat.le_trans (ih h) (Nat.le_max_right _ _)

/-- C1: After any promote(v) call that succeeds, version v has stage
Production and every other version has a stage other than Production
(demoted to Archived when it was live); the invariant that at most one
version holds stage Production is preserved by register and is established
by every successful promote. -/
theorem promote_single_production :
    (∀ (reg : Registry) (v : Nat) (reg' : Registry),
      promote reg v = Except.ok reg' →
      ∀ w ∈ reg'.versions,
        (w.version = v → w.stage = Stage.production) ∧
        (w.version ≠ v → w.stage ≠ Stage.production)) ∧
    (∀ (reg : Registry) (metric : Int) (created : Nat),
      atMostOneProduction reg →
      atMostOneProduction (registerVersion reg metric created).2) ∧
    (∀ (reg : Registry) (v : Nat) (reg' : Registry),
      promote reg v = Except.ok reg' → atMostOneProduction reg') :=
  ⟨fun _ _ _ h => promote_ok_stages h,
   fun reg m c h => register_preserves_atMostOne reg m c h,
   fun _ _ _ h => promote_atMostOne h⟩

/-- Witness for C1: promoting version 3 of `regDemo` (where version 2 is
live) succeeds, archives version 2, and the resulting registry satisfies the
invariant. -/
theorem promote_single_production_witness :
    promote regDemo 3 = Except.ok regDemoAfter ∧
    atMostOneProduction regDemoAfter :=
  ⟨by rfl, promote_single_production.2.2 regDemo 3 regDemoAfter (by rfl)⟩

/-- C2: register assigns a version number strictly greater than every
existing one, the new version appears in the history with no stage, and a
successful promote of a version occurring once leaves the history with
exactly one `Production` entry. -/
theorem register_history_round_trip :
    (∀ (reg : Registry) (m : Int) (c : Nat),
      (∀ w ∈ reg.versions, w.version < (registerVersion reg m c).1) ∧
      (⟨(registerVersion reg m c).1, Stage.none, m, c⟩ : ModelVersion) ∈
        history (registerVersion reg m c).2) ∧
    (∀ (reg : Registry) (v : Nat) (reg' : Registry),
      promote reg v = Except.ok reg' →
      List.countP (fun w => w.version == v) reg.versions = 1 →
      List.countP (fun w => w.stage == Stage.production) (history reg') = 1) := by
  constructor
  · intro reg m c
    constructor
    · intro w hw
      have hle : w.version ≤ (reg.versions.map (fun w => w.version)).foldr Nat.max 0 :=
        le_foldr_max _ _ (List.mem_map_of_mem _ hw)
      exact Nat.lt_succ_of_le hle
    · have hmem : (⟨(registerVersion reg m c).1, Stage.none, m, c⟩ : ModelVersion) ∈
          (registerVersion reg m c).2.versions := by
        simp [registerVersion]
      have hperm := List.perm_insertionSort
        (fun a b : ModelVersion => b.version ≤ a.version)
        (registerVersion reg m c).2.versions
      exact hperm.mem_iff.mpr hmem
  · intro reg v reg' h hcount
    unfold promote at h
    split at h
    · injection h with h'
      subst h'
      have hperm := List.perm_insertionSort
        (fun a b : ModelVersion => b.version ≤ a.version)
        (Registry.mk (reg.versions.map (promoteOne v))).versions
      rw [history, List.Perm.countP_eq _ hperm]
      show List.countP _ (reg.versions.map (promoteOne v)) = 1
      rw [List.countP_map]
      have hcongr :
          List.countP ((fun w => w.stage == Stage.production) ∘ promoteOne v)
              reg.versions =
            List.countP (fun w => w.version == v) reg.versions :=
        List.countP_congr (fun w _ => by
          simp [Function.comp, beq_iff_eq, promoteOne_stage_iff])
      rw [hcongr]
      exact hcount
    · cases h

/-- Witness for C2: in `regDemo` version 3 occurs once; after promoting it,
the history holds exactly one `Production` entry. -/
theorem register_history_round_trip_witness :
    List.countP (fun w => w.version == 3) regDemo.versions = 1 ∧
    List.countP (fun w => w.stage == Stage.production) (history regDemoAfter) = 1 :=
  ⟨by decide,
   register_history_round_trip.2 regDemo 3 regDemoAfter (by rfl) (by decide)⟩

/-- A nonempty list is not `isEmpty`. -/
theorem isEmpty_false_of_ne_nil {l : List Char} (h : l ≠ []) :
    l.isEmpty = false := by
  cases l with
  | nil => exact absurd rfl h
  | cons a as => rfl

/-- C3: for every dataset missing a required column, `validate` fails with a
`SchemaError` naming the missing column (the first missing one in the
required order, when several are missing). -/
theorem validate_schemaError (ds : Dataset) (src : String) (c : String)
    (hc : c ∈ requiredColumns)
    (hmiss : (ds.header.map normalizeCol).contains c = false)
    (hfirst : ∀ c' ∈ requiredColumns,
      requiredColumns.indexOf c' < requiredColumns.indexOf c →
      (ds.header.map normalizeCol).contains c' = true) :
    validate ds src = Except.error (ValidationError.schemaError c) := by
  have hc2 : c = "sqft" ∨ c = "is_expensive" := by
    simpa [requiredColumns] using hc
  unfold validate
  rcases hc2 with rfl | rfl
  · rw [show requiredColumns = ["sqft", "is_expensive"] from rfl]
    rw [List.find?_cons_of_pos _ (by rw [hmiss]; rfl)]
  · have hsq : (ds.header.map normalizeCol).contains ("sqft") = true := by
      apply hfirst
      · simp [requiredColumns]
      · decide
    rw [show requiredColumns = ["sqft", "is_expensive"] from rfl]
    rw [List.find?_cons_of_neg _ (by rw [hsq]; simp)]
    rw [List.find?_cons_of_pos _ (by rw [hmiss]; rfl)]

/-- Witness for C3: `dsMissingCol` lacks the `sqft` column and is rejected
with a `SchemaError` naming it. -/
theorem validate_schemaError_witness :
    (dsMissingCol.header.map normalizeCol).contains ("sqft") = false ∧
    validate dsMissingCol ("housing.csv") =
      Except.error (ValidationError.schemaError ("sqft")) :=
  ⟨by decide,
   validate_schemaError dsMissingCol ("housing.csv") ("sqft") (by decide)
     (by decide) (by decide)⟩

/-- A row whose required cells are all clean yields no per-row error. -/
theorem findBadInRow_none (header row : List String) (cols : List String)
    (h : ∀ c ∈ cols, invalidCharsOf (cellAt header row c) = []) :
    findBadInRow header row cols = Option.none := by
  induction cols with
  | nil => rfl
  | cons c cs ih =>
    unfold findBadInRow
    rw [h c (List.mem_cons_self c cs)]
    simp only [List.isEmpty_nil, if_true]
    exact ih (fun c' hc' => h c' (List.mem_cons_of_mem c hc'))

/-- The per-row scan reports the first required column whose cell is bad. -/
theorem findBadInRow_first (header row : List String) (c : String)
    (hc : c ∈ requiredColumns)
    (hbad : invalidCharsOf (cellAt header row c) ≠ [])
    (hfirst : ∀ c' ∈ requiredColumns,
      requiredColumns.indexOf c' < requiredColumns.indexOf c →
      invalidCharsOf (cellAt header row c') = []) :
    findBadInRow header row requiredColumns =
      Option.some (c, invalidCharsOf (cellAt header row c)) := by
  have hc2 : c = "sqft" ∨ c = "is_expensive" := by
    simpa [requiredColumns] using hc
  rcases hc2 with rfl | rfl
  · show findBadInRow header row ["sqft", "is_expensive"] = _
    unfold findBadInRow
    rw [isEmpty_false_of_ne_nil hbad]
    simp
  · have hsq : invalidCharsOf (cellAt header row ("sqft")) = [] := by
      apply hfirst
      · simp [requiredColumns]
      · decide
    show findBadInRow header row ["sqft", "is_expensive"] = _
    unfold findBadInRow
    rw [hsq]
    simp only [List.isEmpty_nil, if_true]
    unfold findBadInRow
    rw [isEmpty_false_of_ne_nil hbad]
    simp

/-- The row scan reports the first row with a bad required cell, with its
1-indexed row number offset by the start index. -/
theorem findBadCell_spec (header : List String) (src : String) :
    ∀ (rows : List (List String)) (n i : Nat), i < rows.length →
    (∀ j, j < i →
      findBadInRow header (rows.getD j []) requiredColumns = Option.none) →
    ∀ (c : String) (bad : List Char),
      findBadInRow header (rows.getD i []) requiredColumns =
        Option.some (c, bad) →
      findBadCell header src rows n =
        Option.some (ValidationError.formatError (n + i + 1) (n + i + 2) c src bad) := by
  intro rows
  induction rows with
  | nil =>
    intro n i hi
    exact absurd hi (by simp)
  | cons r rs ih =>
    intro n i hi hprev c bad htarget
    cases i with
    | zero =>
      rw [List.getD_cons_zero] at htarget
      unfold findBadCell
      rw [htarget]
    | succ i' =>
      have h0 : findBadInRow header r requiredColumns = Option.none := by
        have h' := hprev 0 (Nat.succ_pos i')
        rwa [List.getD_cons_zero] at h'
      unfold findBadCell
      rw [h0]
      have hi' : i' < rs.length := by simpa using hi
      have hprev' : ∀ j, j < i' →
          findBadInRow header (rs.getD j []) requiredColumns = Option.none := by
        intro j hj
        have h' := hprev (j + 1) (by omega)
        rwa [List.getD_cons_succ] at h'
      have htarget' : findBadInRow header (rs.getD i' []) requiredColumns =
          Option.some (c, bad) := by
        rwa [List.getD_cons_succ] at htarget
      have hrec := ih (n + 1) i' hi' hprev' c bad htarget'
      have e1 : n + 1 + i' = n + (i' + 1) := by omega
      rw [hrec, e1]

/-- C4: for every dataset whose first bad cell (in row-major scan order over
the required columns) sits in data row i (0-indexed) and column c, `validate`
fails with a `FormatError` carrying the 1-indexed row number i+1, the
reported physical line i+2 (header included), the column name, the source
name, and the literal invalid characters of that cell. -/
theorem validate_formatError (ds : Dataset) (src : String) (i : Nat) (c : String)
    (hi : i < ds.rows.length)
    (hc : c ∈ requiredColumns)
    (hschema : ∀ c' ∈ requiredColumns,
      (ds.header.map normalizeCol).contains c' = true)
    (hbad : invalidCharsOf (cellAt ds.header (ds.rows.getD i []) c) ≠ [])
    (hfirst : ∀ j, j < ds.rows.length → ∀ c' ∈ requiredColumns,
      (j < i ∨ (j = i ∧ requiredColumns.indexOf c' < requiredColumns.indexOf c)) →
      invalidCharsOf (cellAt ds.header (ds.rows.getD j []) c') = []) :
    validate ds src =
      Except.error (ValidationError.formatError (i + 1) (i + 2) c src
        (invalidCharsOf (cellAt ds.header (ds.rows.getD i []) c))) := by
  have hfind : requiredColumns.find?
      (fun c => !((ds.header.map normalizeCol).contains c)) = Option.none := by
    rw [List.find?_eq_none]
    intro x hx
    rw [hschema x hx]
    simp
  have hrows : ∀ j, j < i →
      findBadInRow ds.header (ds.rows.getD j []) requiredColumns = Option.none := by
    intro j hj
    apply findBadInRow_none
    intro c' hc'
    exact hfirst j (Nat.lt_trans hj hi) c' hc' (Or.inl hj)
  have hrow : findBadInRow ds.header (ds.rows.getD i []) requiredColumns =
      Option.some (c, invalidCharsOf (cellAt ds.header (ds.rows.getD i []) c)) := by
    apply findBadInRow_first _ _ _ hc hbad
    intro c' hc' hlt
    exact hfirst i hi c' hc' (Or.inr ⟨rfl, hlt⟩)
  have hcell := findBadCell_spec ds.header src ds.rows 0 i hi hrows c _ hrow
  rw [Nat.zero_add] at hcell
  unfold validate
  rw [hfind, hcell]

/-- Witness for C4: the spec's scenario dataset `[{sqft:"5a0",is_expensive:0}]`
fails at row 1 (reported line 2), column `sqft`, bad character `a`. -/
theorem validate_formatError_witness :
    (0 < dsBadCell.rows.length ∧
     invalidCharsOf (cellAt dsBadCell.header (dsBadCell.rows.getD 0 []) ("sqft")) =
       ['a']) ∧
    validate dsBadCell ("upload.csv") =
      Except.error (ValidationError.formatError 1 2 ("sqft") ("upload.csv") ['a']) := by
  refine ⟨by decide, ?_⟩
  have h := validate_formatError dsBadCell ("upload.csv") 0 ("sqft") (by decide)
    (by decide) (by decide) (by decide) (by decide)
  have h2 : invalidCharsOf
      (cellAt dsBadCell.header (dsBadCell.rows.getD 0 []) ("sqft")) = ['a'] := by
    decide
  rw [h2] at h
  exact h

/-- Membership in the deduplication scan: an element is kept iff it occurs
in the remaining input and was not emitted already. -/
theorem mem_dedupGo (a : List String) :
    ∀ (l seen : List (List String)),
      a ∈ dedupGo l seen ↔ (a ∈ l ∧ a ∉ seen) := by
  intro l
  induction l with
  | nil =>
    intro seen
    simp [dedupGo]
  | cons r rs ih =>
    intro seen
    unfold dedupGo
    by_cases hr : r ∈ seen
    · rw [if_pos hr, ih seen]
      simp only [List.mem_cons]
      constructor
      · tauto
      · rintro ⟨h1 | h1, h2⟩
        · subst h1
          exact absurd hr h2
        · exact ⟨h1, h2⟩
    · rw [if_neg hr]
      simp only [List.mem_cons, ih (r :: seen)]
      by_cases har : a = r
      · subst har
        simp [hr]
      · simp [har]

/-- The deduplication scan emits no duplicates. -/
theorem nodup_dedupGo :
    ∀ (l seen : List (List String)), (dedupGo l seen).Nodup := by
  intro l
  induction l with
  | nil =>
    intro seen
    simp [dedupGo]
  | cons r rs ih =>
    intro seen
    unfold dedupGo
    by_cases hr : r ∈ seen
    · rw [if_pos hr]
      exact ih seen
    · rw [if_neg hr]
      refine List.nodup_cons.mpr ⟨?_, ih (r :: seen)⟩
      intro hmem
      exact ((mem_dedupGo r rs (r :: seen)).mp hmem).2 (List.mem_cons_self _ _)

/-- Deduplicating a nonempty list yields a nonempty list. -/
theorem dedupRows_ne_nil {l : List (List String)} (h : l ≠ []) :
    dedupRows l ≠ [] := by
  cases l with
  | nil => exact absurd rfl h
  | cons r rs =>
    unfold dedupRows dedupGo
    rw [if_neg (List.not_mem_nil r)]
    exact List.cons_ne_nil _ _

/-- Unfolding equation of `validatedRows` on a cons cell. -/
theorem validatedRows_cons (nd : NamedDataset) (rest : List NamedDataset) :
    validatedRows (nd :: rest) =
      match validate nd.data nd.name with
      | Except.ok clean => clean.rows ++ validatedRows rest
      | Except.error _ => validatedRows rest := rfl

/-- Validated historical rows distribute over concatenation of stores. -/
theorem validatedRows_append (l₁ l₂ : List NamedDataset) :
    validatedRows (l₁ ++ l₂) = validatedRows l₁ ++ validatedRows l₂ := by
  induction l₁ with
  | nil => rfl
  | cons nd rest ih =>
    rw [List.cons_append, validatedRows_cons, validatedRows_cons]
    cases h : validate nd.data nd.name with
    | error e =>
      show validatedRows (rest ++ l₂) = validatedRows rest ++ validatedRows l₂
      exact ih
    | ok clean =>
      show clean.rows ++ validatedRows (rest ++ l₂) =
        (clean.rows ++ validatedRows rest) ++ validatedRows l₂
      rw [ih, List.append_assoc]

/-- A stored dataset that fails validation contributes no rows. -/
theorem aggregate_skips_invalid (nm : String) (ds : Dataset)
    (store₁ store₂ : List NamedDataset) (bad : NamedDataset)
    (e : ValidationError)
    (hbad : validate bad.data bad.name = Except.error e) :
    aggregate nm ds (store₁ ++ bad :: store₂) =
      aggregate nm ds (store₁ ++ store₂) := by
  unfold aggregate
  have hval : validatedRows ((store₁ ++ bad :: store₂).filter
        (fun nd => nd.name ≠ nm)) =
      validatedRows ((store₁ ++ store₂).filter (fun nd => nd.name ≠ nm)) := by
    rw [List.filter_append, List.filter_append]
    by_cases hb : bad.name = nm
    · rw [List.filter_cons, if_neg (by simp [hb])]
    · rw [List.filter_cons, if_pos (by simp [hb])]
      rw [validatedRows_append, validatedRows_append]
      congr 1
      rw [validatedRows_cons, hbad]
  rw [hval]

/-- C5: aggregation of a newly submitted clean dataset never draws on stored
datasets carrying the submitted name, skips any stored dataset that fails
validation, merges the rest with the new dataset with exact-duplicate rows
removed (membership is preserved, no row occurs twice), and is non-empty
whenever the new dataset is non-empty. -/
theorem aggregate_partial_failure_policy :
    (∀ (nm : String) (ds : Dataset) (store : List NamedDataset),
      aggregate nm ds (store.filter (fun nd => nd.name ≠ nm)) =
        aggregate nm ds store) ∧
    (∀ (nm : String) (ds : Dataset) (store₁ store₂ : List NamedDataset)
       (bad : NamedDataset) (e : ValidationError),
      validate bad.data bad.name = Except.error e →
      aggregate nm ds (store₁ ++ bad :: store₂) =
        aggregate nm ds (store₁ ++ store₂)) ∧
    (∀ (nm : String) (ds : Dataset) (store : List NamedDataset),
      (aggregate nm ds store).Nodup ∧
      ∀ r, r ∈ aggregate nm ds store ↔
        (r ∈ ds.rows ∨
         r ∈ validatedRows (store.filter (fun nd => nd.name ≠ nm)))) ∧
    (∀ (nm : String) (ds : Dataset) (store : List NamedDataset),
      ds.rows ≠ [] → aggregate nm ds store ≠ []) := by
  refine ⟨?_, ?_, ?_, ?_⟩
  · intro nm ds store
    unfold aggregate
    rw [List.filter_filter]
    simp only [Bool.and_self]
  · intro nm ds store₁ store₂ bad e hbad
    exact aggregate_skips_invalid nm ds store₁ store₂ bad e hbad
  · intro nm ds store
    constructor
    · exact nodup_dedupGo _ _
    · intro r
      unfold aggregate dedupRows
      rw [mem_dedupGo]
      simp [List.mem_append]
  · intro nm ds store h
    unfold aggregate
    apply dedupRows_ne_nil
    intro hnil
    exact h (List.append_eq_nil.mp hnil).1

/-- Witness for C5: a stored dataset that fails validation is skipped, and
aggregating the non-empty `dsDemo` yields a non-empty memory set. -/
theorem aggregate_partial_failure_policy_witness :
    validate ndBad.data ndBad.name =
      Except.error (ValidationError.schemaError ("sqft")) ∧
    aggregate ("d1") dsDemo [ndBad] = aggregate ("d1") dsDemo [] ∧
    aggregate ("d1") dsDemo [ndBad] ≠ [] :=
  ⟨by decide,
   aggregate_partial_failure_policy.2.1 ("d1") dsDemo [] [] ndBad
     (ValidationError.schemaError ("sqft")) (by decide),
   aggregate_partial_failure_policy.2.2.2 ("d1") dsDemo [ndBad] (by decide)⟩

/-- C8: submitting the same dataset twice under the same name yields the
same memory set as submitting it once, because the stored copy of the
submitted name is excluded from the historical datasets. -/
theorem aggregate_idempotent (nm : String) (ds : Dataset)
    (store : List NamedDataset) :
    (submitDataset nm ds (submitDataset nm ds store).2).1 =
      (submitDataset nm ds store).1 := by
  show aggregate nm ds (⟨nm, ds⟩ :: store) = aggregate nm ds store
  unfold aggregate
  rw [List.filter_cons, if_neg (by simp)]

/-- C6: an empty memory set, or one with fewer than 2 distinct label
classes, makes `train` fail with `InsufficientDataError`, and the workflow
propagates that error to its caller unchanged. -/
theorem train_insufficient_data :
    (∀ (header : List String) (rows : List (List String)),
      (rows = [] ∨ (labelClasses header rows).length < 2) →
      train header rows = Except.error TrainError.insufficientData) ∧
    (∀ (nm : String) (ds : Dataset) (store : List NamedDataset)
       (clean : Dataset),
      validate ds nm = Except.ok clean →
      train clean.header (aggregate nm clean store) =
        Except.error TrainError.insufficientData →
      runWorkflow nm ds store =
        Except.error (WorkflowError.trainingFailed TrainError.insufficientData)) := by
  constructor
  · intro header rows h
    unfold train
    rw [if_pos h]
  · intro nm ds store clean hv ht
    unfold runWorkflow
    rw [hv]
    show trainStage nm clean store = _
    unfold trainStage
    rw [ht]

/-- Witness for C6: the one-row dataset `dsOneClass` has a single label
class, so the whole workflow fails with the training error. -/
theorem train_insufficient_data_witness :
    (dsOneClass.rows = [] ∨
      (labelClasses dsOneClass.header dsOneClass.rows).length < 2) ∧
    validate dsOneClass ("d") = Except.ok dsOneClass ∧
    runWorkflow ("d") dsOneClass [] =
      Except.error (WorkflowError.trainingFailed TrainError.insufficientData) :=
  ⟨by decide, by decide,
   train_insufficient_data.2 ("d") dsOneClass [] dsOneClass (by decide)
     (by decide)⟩

/-- C7: the `/predict` route of `src/app.py` returns a fixed mock label
computed from the query parameter alone and consults no model, while
`load_production` on a registry with nothing promoted fails with
`NoProductionVersionError`; the code therefore does not implement the
specified `load_production` + `predict` path. -/
theorem predict_endpoint_is_mock :
    predictEndpoint ("1000") = "Prediction for 1000 sqft: (Mock: EXPENSIVE)" ∧
    loadProduction ⟨[]⟩ = Except.error RegistryError.noProductionVersion :=
  ⟨rfl, rfl⟩

/-- A list is a prefix of itself followed by anything. -/
theorem isPrefixOf_append_self (l t : List Char) :
    List.isPrefixOf l (l ++ t) = true := by
  induction l with
  | nil => cases t <;> rfl
  | cons c cs ih => simp [List.isPrefixOf, ih]

/-- C9: a file uploaded through the upload endpoint is stored under the
client filename itself; unless that filename already begins with `uploads/`,
the stored blob is neither the fixed blob read by training nor any blob the
delete endpoint can target. -/
theorem upload_blob_never_trained_or_deleted (f g : String)
    (h : hasUploadsFolder f = false) :
    uploadBlobName f ≠ trainingDataBlob ∧
    uploadBlobName f ≠ deleteBlobName g := by
  constructor
  · intro hEq
    have hcontr : hasUploadsFolder trainingDataBlob = false := by
      rw [← hEq]
      exact h
    exact absurd hcontr (by decide)
  · intro hEq
    have hf : hasUploadsFolder (deleteBlobName g) = false := by
      rw [← hEq]
      exact h
    unfold hasUploadsFolder deleteBlobName at hf
    rw [String.data_append, isPrefixOf_append_self] at hf
    cases hf

/-- Witness for C9: the filename `mydata.csv` has no `uploads/` prefix, so
its blob is never read by training and cannot be targeted by delete. -/
theorem upload_blob_never_trained_or_deleted_witness :
    hasUploadsFolder ("mydata.csv") = false ∧
    uploadBlobName ("mydata.csv") ≠ trainingDataBlob ∧
    uploadBlobName ("mydata.csv") ≠ deleteBlobName ("mydata.csv") :=
  ⟨by decide,
   (upload_blob_never_trained_or_deleted ("mydata.csv") ("mydata.csv")
     (by decide)).1,
   (upload_blob_never_trained_or_deleted ("mydata.csv") ("mydata.csv")
     (by decide)).2⟩

/-- C10: when the training blob `uploads/test_data.csv` does not exist,
`train_model` returns without starting a tracking run, without registering
a model version, and without writing any blob. -/
theorem trainModel_missing_data_noop (metric : Int) (modelBytes : String)
    (now : Nat) (st : SystemState)
    (h : blobExists st trainingDataBlob = false) :
    (trainModel metric modelBytes now st).runsStarted = st.runsStarted ∧
    (trainModel metric modelBytes now st).registry = st.registry ∧
    (trainModel metric modelBytes now st).blobs = st.blobs := by
  unfold trainModel
  rw [h, if_neg Bool.false_ne_true]
  exact ⟨rfl, rfl, rfl⟩

/-- Witness for C10: a bucket holding only `other.csv` makes `train_model`
leave the registry untouched. -/
theorem trainModel_missing_data_noop_witness :
    blobExists stDemo trainingDataBlob = false ∧
    (trainModel 1 ("bytes") 7 stDemo).registry = stDemo.registry :=
  ⟨by decide,
   (trainModel_missing_data_noop 1 ("bytes") 7 stDemo (by decide)).2.1⟩

end HousingApp
